import Mathlib

/-!
Shallow embedding of the FIA_AgenteIA backend service and proofs about it.

The embedding translates, from the repository's Python source:
  * `src/utils/error_handler.py`  — the `ErrorHandler.handle` decorator;
  * `src/utils/rate_limiter.py`   — the `RateLimiter` class (`_get_client_id`,
    `_is_allowed`, `limit`);
  * `src/agents/factory.py`       — `AgentFactory.initialize_agents` /
    `get_agent_status` (construction of the individual agents is abstracted by
    a `construct` oracle, since those classes perform network I/O);
  * `src/agents/mcp_agent.py`     — `MCPAgent.__init__`, `process_message`,
    `reset_conversation` (the MCP session / LangGraph interaction inside the
    `try` block is abstracted by an `env` oracle mapping the current history to
    either a final answer or a raised exception's message);
  * `src/app.py`                  — the `/chat` and `/rag/knowledge` handlers
    with the registered agents' operations abstracted as functions that either
    return a value or raise (an `Except`).

Modelling conventions:
  * Python strings are Lean `String`s (sequences of code points; `s[:n]` is
    `take` on `String.data`).
  * Python truthiness on `Optional[str]` values (`if request.url:` etc.) is
    `pyTruthy`: `None` and the empty string are falsy.
  * `time.time()` timestamps are modelled as integers; only their ordering and
    differences against the integer `period` matter to the rate limiter.
  * A Python coroutine that may raise is an `Except` value: `.ok` is a normal
    return, `.error` a raised exception.  `fastapi.HTTPException` is a
    subclass of `Exception`, so a broad `except Exception` clause catches it;
    the embedding keeps raised exceptions as a sum (`PyExc`) making that
    visible.  Python's `str(e)` on an HTTPException renders as
    `"<status_code>: <detail>"` (starlette's `__str__`).
  * Numeric relevance/confidence scores are modelled as integers; their values
    play no role in any claim.
-/

namespace FIA

/-- `fastapi.HTTPException(status_code, detail)`. -/
structure HTTPException where
  status_code : Nat
  detail : String
deriving DecidableEq, Repr

/-- The Python exception kinds distinguished by this code base: the classes
named in `error_handler.py`'s `except` clauses, plus a catch-all for any other
`Exception`, each carrying its `str(e)` message (for `HTTPException`, the
structured status/detail). -/
inductive PyExc where
  | httpExc (e : HTTPException)
  | valueError (msg : String)
  | permissionError (msg : String)
  | fileNotFoundError (msg : String)
  | timeoutError (msg : String)
  | otherExc (msg : String)
deriving DecidableEq, Repr

/-- Python `str(e)` of an exception: for `HTTPException`, starlette renders
`f"{self.status_code}: {self.detail}"`; the other classes carry their message
as their sole argument. -/
def pyStr : PyExc → String
  | .httpExc e => toString e.status_code ++ ": " ++ e.detail
  | .valueError m => m
  | .permissionError m => m
  | .fileNotFoundError m => m
  | .timeoutError m => m
  | .otherExc m => m

/-- Python truthiness of an `Optional[str]`: `None` and `""` are falsy. -/
def pyTruthy : Option String → Bool
  | none => false
  | some s => !(s == "")

/-- Python `s[:n]` — the first `n` code points of `s`. -/
def pySlice (s : String) (n : Nat) : String :=
  ⟨s.data.take n⟩

/-- `src/utils/error_handler.py`, `ErrorHandler.handle`: wraps an async
operation; the operation's outcome is its return value or the exception it
raised.  Each `except` branch is translated in source order: `HTTPException`
re-raised unchanged; `ValueError` → 400 with the original message;
`PermissionError` → 403; `FileNotFoundError` → 404; `TimeoutError` → 504;
any other `Exception` → 500 with the fixed text `"Internal server error"`.
(The logging calls have no bearing on the returned value.) -/
def ErrorHandler.handle {α : Type} : Except PyExc α → Except HTTPException α
  | .ok a => .ok a
  | .error (.httpExc e) => .error e
  | .error (.valueError m) => .error ⟨400, m⟩
  | .error (.permissionError _) => .error ⟨403, "Permission denied"⟩
  | .error (.fileNotFoundError _) => .error ⟨404, "Resource not found"⟩
  | .error (.timeoutError _) => .error ⟨504, "Request timeout"⟩
  | .error (.otherExc _) => .error ⟨500, "Internal server error"⟩

/-- The parts of a FastAPI `Request` read by `RateLimiter._get_client_id`:
the `X-Forwarded-For` header (absent ↦ `none`) and `request.client.host`
(`none` when `request.client` is `None`). -/
structure Request where
  x_forwarded_for : Option String
  client_host : Option String

/-- `src/utils/rate_limiter.py`, `RateLimiter._get_client_id`: first
comma-separated value of a truthy `X-Forwarded-For` header, else the client
host, else `"unknown"`. -/
def get_client_id (req : Request) : String :=
  match req.x_forwarded_for with
  | some f => if f == "" then req.client_host.getD "unknown" else (f.splitOn ",").headD ""
  | none => req.client_host.getD "unknown"

/-- `src/utils/rate_limiter.py`, `RateLimiter` state: quota (`requests`),
window length in seconds (`period`), and the per-client timestamp lists
(`self.clients`, a `defaultdict(list)`: unseen clients map to `[]`). -/
structure RateLimiter where
  requests : Nat
  period : Int
  clients : String → List Int

/-- `RateLimiter.__init__(requests=100, period=60)`. -/
def RateLimiter.init (requests : Nat) (period : Int) : RateLimiter :=
  ⟨requests, period, fun _ => []⟩

/-- Single-key update of the clients map (`self.clients[client_id] = ...`). -/
def updateClients (f : String → List Int) (cid : String) (l : List Int) :
    String → List Int :=
  fun c => if c = cid then l else f c

/-- `RateLimiter._is_allowed`, with `now` (the `time.time()` reading) passed
explicitly: first timestamps older than the window are discarded and the
pruned list is stored back; if the remaining count is at or above the quota
the call is rejected; otherwise `now` is appended and the call is allowed. -/
def RateLimiter.is_allowed (rl : RateLimiter) (cid : String) (now : Int) :
    Bool × RateLimiter :=
  let kept := (rl.clients cid).filter (fun t => now - rl.period < t)
  if rl.requests ≤ kept.length then
    (false, { rl with clients := updateClients rl.clients cid kept })
  else
    (true, { rl with clients := updateClients rl.clients cid (kept ++ [now]) })

/-- `RateLimiter.limit`: the decorator's wrapper.  `func_result` abstracts
`await func(request, ...)` (its return value, or the exception it raises). -/
def RateLimiter.limit {α : Type} (rl : RateLimiter) (req : Request) (now : Int)
    (func_result : Except HTTPException α) : Except HTTPException α × RateLimiter :=
  let cid := get_client_id req
  match rl.is_allowed cid now with
  | (false, rl1) =>
      (.error ⟨429, "Rate limit exceeded. Please try again later."⟩, rl1)
  | (true, rl1) => (func_result, rl1)

/-- Run a sequence of `_is_allowed` checks for one client at the given times,
returning the outcomes in order and the final limiter state. -/
def runAllowed (rl : RateLimiter) (cid : String) : List Int → List Bool × RateLimiter
  | [] => ([], rl)
  | t :: ts =>
    let r := rl.is_allowed cid t
    let rest := runAllowed r.2 cid ts
    (r.1 :: rest.1, rest.2)

/-- Run a sequence of `_is_allowed` checks for arbitrary clients/times (every
limiter state reachable from `RateLimiter.init` arises this way). -/
def runTrace (rl : RateLimiter) : List (String × Int) → RateLimiter
  | [] => rl
  | (cid, t) :: rest => runTrace (rl.is_allowed cid t).2 rest

/-- The API-key fields of `src/config.py`'s `Settings` read by the factory
(each `None` when the environment variable is absent). -/
structure Settings where
  openai_api_key : Option String
  firecrawl_api_key : Option String
  pinecone_api_key : Option String

/-- `AgentFactory` mutable state: the live registry `self._agents` (the agent
instances themselves are irrelevant; only which types are present matters) and
`self._initialization_errors` as an insertion-ordered association list. -/
structure FactoryState where
  agents : List String
  errors : List (String × String)

/-- One `AgentFactory._initialize_agent(agent_type, cls)` task:
`construct agent_type` is `none` when `cls()` (plus its optional
`initialize()` step) succeeds, and `some e` when it raises an exception with
message `e`; success registers the agent, failure records
`"Failed to initialize: " ++ e`. -/
def initStep (construct : String → Option String) (st : FactoryState)
    (t : String) : FactoryState :=
  match construct t with
  | none => { st with agents := st.agents ++ [t] }
  | some e => { st with errors := st.errors ++ [(t, "Failed to initialize: " ++ e)] }

/-- The errors recorded by `AgentFactory.initialize_agents`'s `else` branches
when a per-type precondition fails, in source order: `mcp` and `workflow`
require truthy Firecrawl and OpenAI keys, else `"Missing API keys"`; `rag`
requires truthy Pinecone and OpenAI keys, else `"Missing Pinecone API key"`;
the `externo`, `mermaid` and `classifica_imagem` `if`s have no `else` branch,
so nothing is recorded for them. -/
def factory_pre_errors (s : Settings) : List (String × String) :=
  (if pyTruthy s.firecrawl_api_key && pyTruthy s.openai_api_key then []
   else [("mcp", "Missing API keys")]) ++
  (if pyTruthy s.firecrawl_api_key && pyTruthy s.openai_api_key then []
   else [("workflow", "Missing API keys")]) ++
  (if pyTruthy s.pinecone_api_key && pyTruthy s.openai_api_key then []
   else [("rag", "Missing Pinecone API key")])

/-- The construction tasks scheduled by `AgentFactory.initialize_agents`: the
agent types whose precondition holds, in source order. -/
def factory_scheduled (s : Settings) : List String :=
  (if pyTruthy s.firecrawl_api_key && pyTruthy s.openai_api_key then ["mcp"] else []) ++
  (if pyTruthy s.firecrawl_api_key && pyTruthy s.openai_api_key then ["workflow"] else []) ++
  (if pyTruthy s.pinecone_api_key && pyTruthy s.openai_api_key then ["rag"] else []) ++
  (if pyTruthy s.openai_api_key then ["externo"] else []) ++
  (if pyTruthy s.openai_api_key then ["mermaid"] else []) ++
  (if pyTruthy s.openai_api_key then ["classifica_imagem"] else [])

/-- `AgentFactory.initialize_agents`: the precondition chain records the
errors of `factory_pre_errors` and schedules the tasks of
`factory_scheduled`; the scheduled tasks then run (`asyncio.gather`), each
settling via `initStep`. -/
def initialize_agents (s : Settings) (construct : String → Option String) :
    FactoryState :=
  (factory_scheduled s).foldl (initStep construct)
    { agents := [], errors := factory_pre_errors s }

/-- The per-type value computed by `AgentFactory.get_agent_status`:
`"available"` if the type is in the live registry, else `"error: <message>"`
if an initialization error was recorded, else `"not configured"`. -/
def statusOf (st : FactoryState) (t : String) : String :=
  if t ∈ st.agents then "available"
  else
    match st.errors.lookup t with
    | some e => "error: " ++ e
    | none => "not configured"

/-- `AgentFactory.get_agent_status`: the report over the fixed list of six
agent types. -/
def get_agent_status (st : FactoryState) : List (String × String) :=
  ["mcp", "workflow", "rag", "externo", "mermaid", "classifica_imagem"].map
    (fun t => (t, statusOf st t))

/-- One role-tagged entry of `MCPAgent.message_history`
(`{"role": ..., "content": ...}`). -/
structure ChatMsg where
  role : String
  content : String
deriving DecidableEq, Repr

/-- `MCPAgent.system_prompt` (the literal from `src/agents/mcp_agent.py`). -/
def system_prompt : String :=
  "Você é um assistente especializado em pesquisa e análise de produtos, ferramentas, soluções e serviços.\n\nVocê pode:\n- Fazer scraping de sites para extrair informações\n- Buscar e comparar produtos/serviços\n- Analisar preços, características e ofertas\n- Fornecer recomendações técnicas objetivas\n\nUse as ferramentas Firecrawl disponíveis para:\n- Fazer scraping de páginas específicas\n- Buscar informações relevantes na web\n- Extrair dados estruturados de sites\n\nSempre forneça respostas úteis, concisas e bem estruturadas."

/-- The mutable state of an `MCPAgent`: its conversation history.  (The model,
server parameters and system prompt fixed in `__init__` never change.) -/
structure MCPAgent where
  message_history : List ChatMsg
deriving DecidableEq, Repr

/-- `MCPAgent.__init__` (with both API keys present): the history starts as
the single system-prompt entry. -/
def MCPAgent.make : MCPAgent :=
  ⟨[⟨"system", system_prompt⟩]⟩

/-- `MCPAgent.process_message`: appends the user message truncated to 175000
characters (`user_message[:175000]`), then runs the MCP-session/LangGraph
block — abstracted by `env`, which maps the current history to the final
answer text or to the message of whatever exception the block raised.  On
success the answer is appended as an assistant turn and returned; on any
exception a formatted error string is returned and the history keeps the user
entry (nothing is rolled back, nothing further is appended). -/
def MCPAgent.process_message (agent : MCPAgent)
    (env : List ChatMsg → Except String String) (user_message : String) :
    String × MCPAgent :=
  let hist1 := agent.message_history ++ [⟨"user", pySlice user_message 175000⟩]
  match env hist1 with
  | .ok ai_message => (ai_message, ⟨hist1 ++ [⟨"assistant", ai_message⟩]⟩)
  | .error e => ("❌ Erro ao processar mensagem: " ++ e, ⟨hist1⟩)

/-- `MCPAgent.reset_conversation`:
`self.message_history = [self.message_history[0]]`.  On an empty history
Python would raise an `IndexError` (`none` here); the history of any agent
constructed by `__init__` is never empty. -/
def MCPAgent.reset_conversation (agent : MCPAgent) : Option MCPAgent :=
  match agent.message_history with
  | [] => none
  | h :: _ => some ⟨[h]⟩

/-- An operation performed on an `MCPAgent` after construction: a
`process_message` call (with its abstracted external interactions) or a
`reset_conversation` call. -/
inductive MCPOp where
  | msg (env : List ChatMsg → Except String String) (m : String)
  | reset

/-- Run a sequence of operations on an `MCPAgent` (every reachable agent state
arises this way from `MCPAgent.make`).  The `none` branch of a reset is
unreachable from `MCPAgent.make` and keeps the state unchanged. -/
def runOps (agent : MCPAgent) : List MCPOp → MCPAgent
  | [] => agent
  | MCPOp.msg env m :: rest => runOps (agent.process_message env m).2 rest
  | MCPOp.reset :: rest =>
    match agent.reset_conversation with
    | some a => runOps a rest
    | none => runOps agent rest

/-- `ChatRequest` (`src/app.py`): FastAPI validates `message` to 1..5000
characters before the handler runs. -/
structure ChatRequest where
  message : String
  agent_type : String
  diagram_type : String
deriving DecidableEq, Repr

/-- One entry of the `sources` list built by the chat handler for the RAG
agent (`{"content": ..., "score": ..., "metadata": ...}`). -/
structure SourceEntry where
  content : String
  score : Int
  metadata : String
deriving DecidableEq, Repr

/-- `ChatResponse` (`src/app.py`). -/
structure ChatResponse where
  response : String
  agent_type : String
  status : String
  sources : Option (List SourceEntry)
  confidence : Option Int
deriving DecidableEq, Repr

/-- A document in `rag_response.sources` as consumed by the chat handler. -/
structure RAGDoc where
  content : String
  score : Int
  metadata : String
deriving DecidableEq, Repr

/-- The result of `RAGAgent.query` as consumed by the chat handler. -/
structure RAGQueryResponse where
  answer : String
  sources : List RAGDoc
  confidence : Int

/-- The RAG agent's operations as invoked by `src/app.py` (the implementation
lives outside this repository's source): each call returns a value or raises
an exception with the given message. -/
structure RagAgent where
  query : String → Except String RAGQueryResponse
  add_knowledge_from_url : String → Except String Bool
  add_knowledge_from_text : String → String → Except String Bool

/-- The flat registry `agents_dict` of `src/app.py`.  `initialize_agents`
only ever inserts the keys `"mcp"`, `"workflow"`, `"rag"`, `"externo"` and
`"mermaid"`; each registered agent is abstracted by the operation the chat
handler invokes on it (returning a value or raising). -/
structure AgentsDict where
  mcp : Option (String → Except String String)
  workflow : Option (String → Except String String)
  rag : Option RagAgent
  externo : Option (String → Except String String)
  mermaid : Option (String → String → Except String String)

/-- A registered agent object as retrieved by `agents_dict.get(agent_type)`. -/
inductive AgentObj where
  | mcpA (process_message : String → Except String String)
  | workflowA (process_query : String → Except String String)
  | ragA (a : RagAgent)
  | externoA (process_message : String → Except String String)
  | mermaidA (process_message : String → String → Except String String)

/-- `agents_dict.get(agent_type)`. -/
def AgentsDict.get (d : AgentsDict) : String → Option AgentObj
  | "mcp" => d.mcp.map .mcpA
  | "workflow" => d.workflow.map .workflowA
  | "rag" => d.rag.map .ragA
  | "externo" => d.externo.map .externoA
  | "mermaid" => d.mermaid.map .mermaidA
  | _ => none

/-- The source-shaping applied per document in the chat handler's `rag`
branch: content truncated to 200 characters plus `"..."` when longer than
200. -/
def shapeSource (doc : RAGDoc) : SourceEntry :=
  ⟨if 200 < doc.content.length then pySlice doc.content 200 ++ "..." else doc.content,
   doc.score, doc.metadata⟩

/-- The in-band error `ChatResponse` built by the chat handler's
`except Exception` clause. -/
def chatError (agent_type e : String) : ChatResponse :=
  ⟨"❌ Erro ao processar mensagem: " ++ e, agent_type, "error", none, none⟩

/-- The exception of a fallible call, if it raised one. -/
def raisedMsg {α : Type} : Except String α → Option String
  | .ok _ => none
  | .error e => some e

/-- The exception (if any) raised by the agent call the chat handler
dispatches for a retrieved agent object. -/
def dispatchRaises (obj : AgentObj) (req : ChatRequest) : Option String :=
  match obj with
  | .mcpA f => raisedMsg (f req.message)
  | .workflowA f => raisedMsg (f req.message)
  | .ragA a => raisedMsg (a.query req.message)
  | .externoA f => raisedMsg (f req.message)
  | .mermaidA f => raisedMsg (f req.message req.diagram_type)

/-- `src/app.py`, `chat_endpoint`: looks up the agent; if absent returns an
in-band error response (HTTP 200).  Otherwise dispatches the type-specific
call inside a `try` whose `except Exception` clause converts any raised
exception into an in-band error response.  (The handler's final `else` branch,
`"❌ Tipo de agente inválido"`, is unreachable: `agents_dict` only ever holds
the five dispatched keys.)  The `Except HTTPException` result type records
that the handler itself may in principle raise; every branch in fact returns
`.ok`. -/
def chat_endpoint (d : AgentsDict) (req : ChatRequest) :
    Except HTTPException ChatResponse :=
  match d.get req.agent_type with
  | none =>
      .ok ⟨"❌ Agente " ++ req.agent_type ++ " não está disponível.",
           req.agent_type, "error", none, none⟩
  | some obj =>
    match obj with
    | .mcpA f =>
      match f req.message with
      | .ok r => .ok ⟨r, "mcp", "success", none, none⟩
      | .error e => .ok (chatError req.agent_type e)
    | .workflowA f =>
      match f req.message with
      | .ok r => .ok ⟨r, "workflow", "success", none, none⟩
      | .error e => .ok (chatError req.agent_type e)
    | .ragA a =>
      match a.query req.message with
      | .ok rr =>
          .ok ⟨rr.answer, "rag", "success", some (rr.sources.map shapeSource),
               some rr.confidence⟩
      | .error e => .ok (chatError req.agent_type e)
    | .externoA f =>
      match f req.message with
      | .ok r => .ok ⟨r, "externo", "success", none, none⟩
      | .error e => .ok (chatError req.agent_type e)
    | .mermaidA f =>
      match f req.message req.diagram_type with
      | .ok r => .ok ⟨r, "mermaid", "success", none, none⟩
      | .error e => .ok (chatError req.agent_type e)

/-- `RAGKnowledgeRequest` (`src/app.py`): all three fields optional. -/
structure RAGKnowledgeRequest where
  url : Option String
  text : Option String
  source_id : Option String
deriving DecidableEq, Repr

/-- The `{status, message}` body returned by `/rag/knowledge` on a handled
outcome. -/
structure KnowledgeReply where
  status : String
  message : String
deriving DecidableEq, Repr

/-- The body of the `try` block of `src/app.py`'s `add_knowledge` handler:
the `url` branch (Python truthiness) takes precedence, then the
`text and source_id` branch; with neither, `HTTPException(400, ...)` is
raised — note that this raise happens inside the `try`.  Exceptions raised by
the RAG agent's calls surface as generic exceptions. -/
def addKnowledgeBody (agent : RagAgent) (req : RAGKnowledgeRequest) :
    Except PyExc KnowledgeReply :=
  if pyTruthy req.url then
    match agent.add_knowledge_from_url (req.url.getD "") with
    | .ok true => .ok ⟨"success", "Conhecimento adicionado de: " ++ req.url.getD ""⟩
    | .ok false => .ok ⟨"error", "Falha ao adicionar conhecimento"⟩
    | .error e => .error (.otherExc e)
  else if pyTruthy req.text && pyTruthy req.source_id then
    match agent.add_knowledge_from_text (req.text.getD "") (req.source_id.getD "") with
    | .ok true => .ok ⟨"success", "Conhecimento adicionado: " ++ req.source_id.getD ""⟩
    | .ok false => .ok ⟨"error", "Falha ao adicionar conhecimento"⟩
    | .error e => .error (.otherExc e)
  else
    .error (.httpExc ⟨400, "URL ou texto + source_id são obrigatórios"⟩)

/-- `src/app.py`, `add_knowledge` (`POST /rag/knowledge`): with no RAG agent
registered, raises 503 (outside the `try`).  Otherwise runs the body; its
`except Exception as e` clause catches every exception — including the
handler's own `HTTPException(400, ...)`, since `HTTPException` subclasses
`Exception` — and re-raises `HTTPException(500, "Erro: " ++ str(e))`. -/
def add_knowledge (ragAgent : Option RagAgent) (req : RAGKnowledgeRequest) :
    Except HTTPException KnowledgeReply :=
  match ragAgent with
  | none => .error ⟨503, "Agente RAG não disponível"⟩
  | some agent =>
    match addKnowledgeBody agent req with
    | .ok r => .ok r
    | .error e => .error ⟨500, "Erro: " ++ pyStr e⟩

/-- A registry with no agents (no API keys configured). -/
def emptyAgentsDict : AgentsDict :=
  ⟨none, none, none, none, none⟩

/-- A RAG agent whose ingestion operations report success — a concrete
instantiation of the abstracted `RAGAgent` interface used to evaluate the
`/rag/knowledge` handler. -/
def okRagAgent : RagAgent :=
  ⟨fun _ => .ok ⟨"", [], 0⟩, fun _ => .ok true, fun _ _ => .ok true⟩

/-- A small concrete limiter state (quota 1, period 60, one stored timestamp
for client `"cli"`) used to evaluate the rejection path. -/
def probeLimiter : RateLimiter :=
  ⟨1, 60, fun c => if c = "cli" then [0] else []⟩

/-! Helper lemmas. -/

/-- Indexing an appended list at the length of the prefix yields the first
appended element. -/
theorem getElem?_append_cons {α : Type} (l : List α) (u : α) (r : List α) :
    (l ++ u :: r)[l.length]? = some u := by
  induction l with
  | nil => simp
  | cons a t ih => simpa using ih

/-- `head?` is preserved by appending on the right when the prefix is
nonempty. -/
theorem head?_append_some {α : Type} {l : List α} {a : α} (l2 : List α)
    (h : l.head? = some a) : (l ++ l2).head? = some a := by
  cases l with
  | nil => cases h
  | cons x t => simpa using h

/-- Truncation is the identity on strings no longer than the bound. -/
theorem pySlice_of_le (s : String) (n : Nat) (h : s.length ≤ n) :
    pySlice s n = s := by
  unfold pySlice
  rw [List.take_of_length_le h]

/-- Claim C5 wrapped operations: an invalid-input failure (`ValueError`) maps
to 400 with the original message; an unclassified failure maps to 500 with the
fixed text `"Internal server error"` regardless of the original message; an
`HTTPException` is re-raised unchanged. -/
theorem error_handler_maps_kinds (α : Type) (m : String) (e : HTTPException) :
    @ErrorHandler.handle α (Except.error (PyExc.valueError m)) = Except.error ⟨400, m⟩ ∧
    @ErrorHandler.handle α (Except.error (PyExc.otherExc m)) =
      Except.error ⟨500, "Internal server error"⟩ ∧
    @ErrorHandler.handle α (Except.error (PyExc.httpExc e)) = Except.error e :=
  ⟨rfl, rfl, rfl⟩

/-- Claim C1 (the code contradicts its intended 400): with the RAG agent
registered, a request supplying neither a URL nor both text and source_id
makes the handler raise `HTTPException(400, ...)` inside its own `try` block,
whose `except Exception` clause catches it and re-raises HTTP 500 — the
endpoint fails with status 500, not 400. -/
theorem add_knowledge_missing_fields_is_500 (agent : RagAgent) :
    add_knowledge (some agent) ⟨none, none, none⟩ =
      Except.error ⟨500, "Erro: 400: URL ou texto + source_id são obrigatórios"⟩ ∧
    add_knowledge (some agent) ⟨none, some "algum texto", none⟩ =
      Except.error ⟨500, "Erro: 400: URL ou texto + source_id são obrigatórios"⟩ :=
  ⟨rfl, rfl⟩

/-- Claim C8 counterexample: a request supplying both a URL and text plus a
source identifier succeeds (the URL branch is taken), refuting "exactly one
... must be supplied for the request to succeed". -/
theorem add_knowledge_both_supplied_succeeds :
    add_knowledge (some okRagAgent)
        ⟨some "https://example.com", some "algum texto", some "fonte-1"⟩ =
      Except.ok ⟨"success", "Conhecimento adicionado de: https://example.com"⟩ :=
  rfl

/-- Claim C8 amended: a truthy URL takes precedence — the `text`/`source_id`
fields are ignored whenever a URL is supplied, and the request succeeds when
URL ingestion reports success. -/
theorem add_knowledge_url_precedence (agent : RagAgent) (u : String)
    (t s : Option String) (hu : u ≠ "") :
    add_knowledge (some agent) ⟨some u, t, s⟩ =
      add_knowledge (some agent) ⟨some u, none, none⟩ ∧
    (agent.add_knowledge_from_url u = Except.ok true →
      add_knowledge (some agent) ⟨some u, t, s⟩ =
        Except.ok ⟨"success", "Conhecimento adicionado de: " ++ u⟩) := by
  have htr : pyTruthy (some u) = true := by simp [pyTruthy, hu]
  constructor
  · simp [add_knowledge, addKnowledgeBody, htr]
  · intro h
    simp [add_knowledge, addKnowledgeBody, htr, h]

/-- Witness for the amended C8 theorem at a concrete request supplying all
three fields. -/
theorem add_knowledge_url_precedence_test :
    add_knowledge (some okRagAgent)
        ⟨some "https://example.com", some "algum texto", some "fonte-1"⟩ =
      add_knowledge (some okRagAgent) ⟨some "https://example.com", none, none⟩ :=
  (add_knowledge_url_precedence okRagAgent "https://example.com"
    (some "algum texto") (some "fonte-1") (by decide)).1

/-- Claim C6: the user entry appended to the dynamic-tool agent's history (at
index `|old history|`) is the message itself when it has at most 175000
characters, and exactly its first 175000 characters otherwise. -/
theorem mcp_history_truncates_user_message
    (env : List ChatMsg → Except String String) (agent : MCPAgent) (m : String) :
    ((agent.process_message env m).2.message_history)[agent.message_history.length]? =
      some ⟨"user", if 175000 < m.length then pySlice m 175000 else m⟩ := by
  have hstored : (if 175000 < m.length then pySlice m 175000 else m) = pySlice m 175000 := by
    by_cases h : 175000 < m.length
    · rw [if_pos h]
    · rw [if_neg h, pySlice_of_le m 175000 (Nat.le_of_not_lt h)]
  rw [hstored]
  unfold MCPAgent.process_message
  cases henv : env (agent.message_history ++ [⟨"user", pySlice m 175000⟩]) with
  | ok r =>
    simp only [henv]
    rw [List.append_assoc]
    exact getElem?_append_cons agent.message_history _ _
  | error e =>
    simp only [henv]
    exact getElem?_append_cons agent.message_history _ _

/-- Claim C9: when the abstracted MCP-session/model block raises, the agent
returns the formatted error string (it does not raise), and the history at
return time ends with the truncated user entry — no assistant entry, no
rollback. -/
theorem mcp_process_error_no_rollback (agent : MCPAgent)
    (env : List ChatMsg → Except String String) (m e : String)
    (h : env (agent.message_history ++ [⟨"user", pySlice m 175000⟩]) = Except.error e) :
    agent.process_message env m =
      ("❌ Erro ao processar mensagem: " ++ e,
        ⟨agent.message_history ++ [⟨"user", pySlice m 175000⟩]⟩) ∧
    (agent.process_message env m).2.message_history.getLast? =
      some ⟨"user", pySlice m 175000⟩ := by
  have h1 : agent.process_message env m =
      ("❌ Erro ao processar mensagem: " ++ e,
        ⟨agent.message_history ++ [⟨"user", pySlice m 175000⟩]⟩) := by
    simp only [MCPAgent.process_message]
    rw [h]
  refine ⟨h1, ?_⟩
  rw [h1]
  exact List.getLast?_concat _

/-- Witness for C9 at a concrete agent, message and failing environment. -/
theorem mcp_process_error_no_rollback_test :
    MCPAgent.make.process_message (fun _ => Except.error "falha de conexao") "oi" =
      ("❌ Erro ao processar mensagem: falha de conexao",
        ⟨[⟨"system", system_prompt⟩, ⟨"user", "oi"⟩]⟩) :=
  (mcp_process_error_no_rollback MCPAgent.make
    (fun _ => Except.error "falha de conexao") "oi" "falha de conexao" rfl).1

/-- `process_message` extends the history by the truncated user entry and
possibly more. -/
theorem process_message_history (agent : MCPAgent)
    (env : List ChatMsg → Except String String) (m : String) :
    ∃ rest, (agent.process_message env m).2.message_history =
      agent.message_history ++ (⟨"user", pySlice m 175000⟩ :: rest) := by
  cases henv : env (agent.message_history ++ [⟨"user", pySlice m 175000⟩]) with
  | ok r =>
    refine ⟨[⟨"assistant", r⟩], ?_⟩
    simp only [MCPAgent.process_message, henv]
    simp
  | error e =>
    refine ⟨[], ?_⟩
    simp only [MCPAgent.process_message, henv]

/-- The head of the history (the system-prompt entry of a freshly constructed
agent) is preserved by every operation sequence. -/
theorem runOps_head_invariant (ops : List MCPOp) :
    ∀ (agent : MCPAgent) (a : ChatMsg),
      agent.message_history.head? = some a →
      (runOps agent ops).message_history.head? = some a := by
  induction ops with
  | nil => intro agent a h; simpa [runOps] using h
  | cons op rest ih =>
    intro agent a h
    cases op with
    | msg env m =>
      simp only [runOps]
      apply ih
      obtain ⟨r, hr⟩ := process_message_history agent env m
      rw [hr]
      exact head?_append_some _ h
    | reset =>
      simp only [runOps, MCPAgent.reset_conversation]
      rcases hh : agent.message_history with _ | ⟨x, t⟩
      · rw [hh] at h
        cases h
      · rw [hh] at h
        simp only [List.head?_cons, Option.some.injEq] at h
        apply ih
        simp [h]

/-- Claim C7: after any sequence of `process_message` / `reset_conversation`
calls on a freshly constructed dynamic-tool agent, `reset_conversation`
leaves the history as exactly the single original system-prompt entry. -/
theorem mcp_reset_gives_system_prompt_only (ops : List MCPOp) :
    (runOps MCPAgent.make ops).reset_conversation =
      some ⟨[⟨"system", system_prompt⟩]⟩ := by
  have h := runOps_head_invariant ops MCPAgent.make ⟨"system", system_prompt⟩ rfl
  rcases hh : (runOps MCPAgent.make ops).message_history with _ | ⟨x, t⟩
  · rw [hh] at h
    cases h
  · rw [hh] at h
    simp only [List.head?_cons, Option.some.injEq] at h
    simp only [MCPAgent.reset_conversation, hh, h]

/-- Claim C2: for a well-formed chat request, the endpoint always returns a
normal response (never an HTTP error): an unregistered agent type yields an
in-band error naming that type, and any exception raised by the dispatched
agent call yields an in-band error carrying the exception's message. -/
theorem chat_endpoint_in_band_errors (d : AgentsDict) (req : ChatRequest)
    (hmsg : 1 ≤ req.message.length ∧ req.message.length ≤ 5000) :
    (∃ resp, chat_endpoint d req = Except.ok resp) ∧
    (d.get req.agent_type = none →
      chat_endpoint d req =
        Except.ok ⟨"❌ Agente " ++ req.agent_type ++ " não está disponível.",
          req.agent_type, "error", none, none⟩) ∧
    (∀ obj e, d.get req.agent_type = some obj →
      dispatchRaises obj req = some e →
      chat_endpoint d req = Except.ok (chatError req.agent_type e)) := by
  refine ⟨?_, ?_, ?_⟩
  · rcases hg : d.get req.agent_type with _ | obj
    · exact ⟨_, by simp [chat_endpoint, hg]; rfl⟩
    · cases obj with
      | mcpA f =>
        cases hc : f req.message with
        | error e => exact ⟨_, by simp [chat_endpoint, hg, hc]; rfl⟩
        | ok r => exact ⟨_, by simp [chat_endpoint, hg, hc]; rfl⟩
      | workflowA f =>
        cases hc : f req.message with
        | error e => exact ⟨_, by simp [chat_endpoint, hg, hc]; rfl⟩
        | ok r => exact ⟨_, by simp [chat_endpoint, hg, hc]; rfl⟩
      | ragA a =>
        cases hc : a.query req.message with
        | error e => exact ⟨_, by simp [chat_endpoint, hg, hc]; rfl⟩
        | ok rr => exact ⟨_, by simp [chat_endpoint, hg, hc]; rfl⟩
      | externoA f =>
        cases hc : f req.message with
        | error e => exact ⟨_, by simp [chat_endpoint, hg, hc]; rfl⟩
        | ok r => exact ⟨_, by simp [chat_endpoint, hg, hc]; rfl⟩
      | mermaidA f =>
        cases hc : f req.message req.diagram_type with
        | error e => exact ⟨_, by simp [chat_endpoint, hg, hc]; rfl⟩
        | ok r => exact ⟨_, by simp [chat_endpoint, hg, hc]; rfl⟩
  · intro hg
    simp [chat_endpoint, hg]
  · intro obj e hg hr
    cases obj with
    | mcpA f =>
      cases hc : f req.message with
      | error e2 =>
        simp only [dispatchRaises, hc, raisedMsg, Option.some.injEq] at hr
        subst hr
        simp [chat_endpoint, hg, hc]
      | ok r =>
        simp only [dispatchRaises, hc, raisedMsg] at hr
        exact Option.noConfusion hr
    | workflowA f =>
      cases hc : f req.message with
      | error e2 =>
        simp only [dispatchRaises, hc, raisedMsg, Option.some.injEq] at hr
        subst hr
        simp [chat_endpoint, hg, hc]
      | ok r =>
        simp only [dispatchRaises, hc, raisedMsg] at hr
        exact Option.noConfusion hr
    | ragA a =>
      cases hc : a.query req.message with
      | error e2 =>
        simp only [dispatchRaises, hc, raisedMsg, Option.some.injEq] at hr
        subst hr
        simp [chat_endpoint, hg, hc]
      | ok rr =>
        simp only [dispatchRaises, hc, raisedMsg] at hr
        exact Option.noConfusion hr
    | externoA f =>
      cases hc : f req.message with
      | error e2 =>
        simp only [dispatchRaises, hc, raisedMsg, Option.some.injEq] at hr
        subst hr
        simp [chat_endpoint, hg, hc]
      | ok r =>
        simp only [dispatchRaises, hc, raisedMsg] at hr
        exact Option.noConfusion hr
    | mermaidA f =>
      cases hc : f req.message req.diagram_type with
      | error e2 =>
        simp only [dispatchRaises, hc, raisedMsg, Option.some.injEq] at hr
        subst hr
        simp [chat_endpoint, hg, hc]
      | ok r =>
        simp only [dispatchRaises, hc, raisedMsg] at hr
        exact Option.noConfusion hr

/-- Witness for C2 at a concrete valid request against an empty registry. -/
theorem chat_endpoint_in_band_errors_test :
    chat_endpoint emptyAgentsDict ⟨"oi", "mcp", "sequence"⟩ =
      Except.ok ⟨"❌ Agente mcp não está disponível.", "mcp", "error", none, none⟩ :=
  (chat_endpoint_in_band_errors emptyAgentsDict ⟨"oi", "mcp", "sequence"⟩
    ⟨by decide, by decide⟩).2.1 rfl

/-- `lookup` distributes over append, taking the first hit. -/
theorem lookup_append (l1 l2 : List (String × String)) (k : String) :
    (l1 ++ l2).lookup k = (l1.lookup k).or (l2.lookup k) := by
  induction l1 with
  | nil => simp [List.lookup]
  | cons a t ih =>
    cases a with
    | mk a1 a2 =>
      simp only [List.cons_append, List.lookup]
      by_cases h : k == a1
      · simp [h]
      · simp only [h]
        simpa using ih

/-- Settling construction tasks for types other than `t` does not change
whether `t` is registered. -/
theorem foldl_initStep_agents (construct : String → Option String)
    (l : List String) :
    ∀ (st : FactoryState) (t : String), t ∉ l →
      (t ∈ (l.foldl (initStep construct) st).agents ↔ t ∈ st.agents) := by
  induction l with
  | nil =>
    intro st t _
    simp
  | cons a rest ih =>
    intro st t h
    have hta : t ≠ a := fun he => h (he ▸ List.mem_cons_self a rest)
    have htr : t ∉ rest := fun hm => h (List.mem_cons_of_mem a hm)
    rw [List.foldl_cons, ih (initStep construct st a) t htr]
    unfold initStep
    cases construct a with
    | none => simp [hta]
    | some e => simp

/-- Settling construction tasks for types other than `t` does not change the
recorded error looked up for `t`. -/
theorem foldl_initStep_errors (construct : String → Option String)
    (l : List String) :
    ∀ (st : FactoryState) (t : String), t ∉ l →
      (l.foldl (initStep construct) st).errors.lookup t = st.errors.lookup t := by
  induction l with
  | nil =>
    intro st t _
    rfl
  | cons a rest ih =>
    intro st t h
    have hta : t ≠ a := fun he => h (he ▸ List.mem_cons_self a rest)
    have htr : t ∉ rest := fun hm => h (List.mem_cons_of_mem a hm)
    rw [List.foldl_cons, ih (initStep construct st a) t htr]
    unfold initStep
    cases construct a with
    | none => rfl
    | some e =>
      simp only
      rw [lookup_append]
      have hsingle : ([(a, "Failed to initialize: " ++ e)].lookup t) = none := by
        simp [List.lookup, beq_eq_false_iff_ne.mpr hta]
      rw [hsingle, Option.or_none]

/-- The status of an agent type whose construction was never scheduled is
determined by the precondition-recorded errors alone. -/
theorem statusOf_unscheduled (s : Settings) (construct : String → Option String)
    (t : String) (h : t ∉ factory_scheduled s) :
    statusOf (initialize_agents s construct) t =
      (match (factory_pre_errors s).lookup t with
       | some e => "error: " ++ e
       | none => "not configured") := by
  unfold initialize_agents statusOf
  rw [foldl_initStep_errors construct _ _ t h]
  rw [if_neg]
  intro hmem
  exact absurd ((foldl_initStep_agents construct _ _ t h).mp hmem) (by simp)

/-- A type appears in the scheduled-construction list only when its
precondition held. -/
theorem factory_scheduled_guards (s : Settings) :
    ("mcp" ∈ factory_scheduled s →
      (pyTruthy s.firecrawl_api_key && pyTruthy s.openai_api_key) = true) ∧
    ("workflow" ∈ factory_scheduled s →
      (pyTruthy s.firecrawl_api_key && pyTruthy s.openai_api_key) = true) ∧
    ("rag" ∈ factory_scheduled s →
      (pyTruthy s.pinecone_api_key && pyTruthy s.openai_api_key) = true) ∧
    ("externo" ∈ factory_scheduled s → pyTruthy s.openai_api_key = true) ∧
    ("mermaid" ∈ factory_scheduled s → pyTruthy s.openai_api_key = true) ∧
    ("classifica_imagem" ∈ factory_scheduled s →
      pyTruthy s.openai_api_key = true) := by
  cases hg1 : pyTruthy s.firecrawl_api_key && pyTruthy s.openai_api_key <;>
    cases hg2 : pyTruthy s.pinecone_api_key && pyTruthy s.openai_api_key <;>
      cases hg3 : pyTruthy s.openai_api_key <;>
        refine ⟨?_, ?_, ?_, ?_, ?_, ?_⟩ <;> intro hm <;>
          first
          | rfl
          | (unfold factory_scheduled at hm
             rw [hg1, hg2, hg3] at hm
             exact absurd hm (by decide))

/-- Claim C3 counterexample: with every API key absent, all six type-specific
preconditions fail, yet the status report for `externo` (likewise `mermaid`,
`classifica_imagem`) is `"not configured"`, not an `"error: ..."` value — no
"missing API keys" error is recorded for those three types. -/
theorem factory_externo_not_configured :
    pyTruthy (Settings.mk none none none).openai_api_key = false ∧
    statusOf (initialize_agents ⟨none, none, none⟩ (fun _ => none)) "externo" =
      "not configured" ∧
    statusOf (initialize_agents ⟨none, none, none⟩ (fun _ => none)) "mermaid" =
      "not configured" :=
  ⟨rfl, rfl, rfl⟩

/-- Claim C3 amended: when the `mcp` or `workflow` precondition fails, the
status is `"error: Missing API keys"`; when the `rag` precondition fails it is
`"error: Missing Pinecone API key"`; when the `externo`, `mermaid` or
`classifica_imagem` precondition fails, nothing is recorded and the status is
`"not configured"`. -/
theorem factory_status_on_failed_preconditions (s : Settings)
    (construct : String → Option String) :
    ((pyTruthy s.firecrawl_api_key && pyTruthy s.openai_api_key) = false →
      statusOf (initialize_agents s construct) "mcp" = "error: Missing API keys" ∧
      statusOf (initialize_agents s construct) "workflow" =
        "error: Missing API keys") ∧
    ((pyTruthy s.pinecone_api_key && pyTruthy s.openai_api_key) = false →
      statusOf (initialize_agents s construct) "rag" =
        "error: Missing Pinecone API key") ∧
    (pyTruthy s.openai_api_key = false →
      statusOf (initialize_agents s construct) "externo" = "not configured" ∧
      statusOf (initialize_agents s construct) "mermaid" = "not configured" ∧
      statusOf (initialize_agents s construct) "classifica_imagem" =
        "not configured") := by
  refine ⟨?_, ?_, ?_⟩
  · intro h
    constructor
    · have hnot : "mcp" ∉ factory_scheduled s := by
        intro hm
        have hg := (factory_scheduled_guards s).1 hm
        rw [h] at hg
        cases hg
      rw [statusOf_unscheduled s construct "mcp" hnot]
      unfold factory_pre_errors
      simp [h, List.lookup]
    · have hnot : "workflow" ∉ factory_scheduled s := by
        intro hm
        have hg := (factory_scheduled_guards s).2.1 hm
        rw [h] at hg
        cases hg
      rw [statusOf_unscheduled s construct "workflow" hnot]
      unfold factory_pre_errors
      simp [h, List.lookup]
  · intro h
    have hnot : "rag" ∉ factory_scheduled s := by
      intro hm
      have hg := (factory_scheduled_guards s).2.2.1 hm
      rw [h] at hg
      cases hg
    rw [statusOf_unscheduled s construct "rag" hnot]
    unfold factory_pre_errors
    cases hg1 : pyTruthy s.firecrawl_api_key && pyTruthy s.openai_api_key <;>
      simp [hg1, h, List.lookup]
  · intro h
    have hg1 : (pyTruthy s.firecrawl_api_key && pyTruthy s.openai_api_key) = false := by
      rw [h, Bool.and_false]
    have hg2 : (pyTruthy s.pinecone_api_key && pyTruthy s.openai_api_key) = false := by
      rw [h, Bool.and_false]
    refine ⟨?_, ?_, ?_⟩
    · have hnot : "externo" ∉ factory_scheduled s := by
        intro hm
        have hg := (factory_scheduled_guards s).2.2.2.1 hm
        rw [h] at hg
        cases hg
      rw [statusOf_unscheduled s construct "externo" hnot]
      unfold factory_pre_errors
      simp [hg1, hg2, List.lookup]
    · have hnot : "mermaid" ∉ factory_scheduled s := by
        intro hm
        have hg := (factory_scheduled_guards s).2.2.2.2.1 hm
        rw [h] at hg
        cases hg
      rw [statusOf_unscheduled s construct "mermaid" hnot]
      unfold factory_pre_errors
      simp [hg1, hg2, List.lookup]
    · have hnot : "classifica_imagem" ∉ factory_scheduled s := by
        intro hm
        have hg := (factory_scheduled_guards s).2.2.2.2.2 hm
        rw [h] at hg
        cases hg
      rw [statusOf_unscheduled s construct "classifica_imagem" hnot]
      unfold factory_pre_errors
      simp [hg1, hg2, List.lookup]

/-- Witness for the amended C3 theorem at a configuration with no keys. -/
theorem factory_status_on_failed_preconditions_test :
    (pyTruthy (Settings.mk none none none).firecrawl_api_key &&
      pyTruthy (Settings.mk none none none).openai_api_key) = false ∧
    statusOf (initialize_agents ⟨none, none, none⟩ (fun _ => none)) "mcp" =
      "error: Missing API keys" :=
  ⟨rfl,
   ((factory_status_on_failed_preconditions ⟨none, none, none⟩ (fun _ => none)).1
     rfl).1⟩

/-- Filtering out a present element strictly shortens a list. -/
theorem length_filter_lt_of_mem {α : Type} (l : List α) (p : α → Bool) (x : α)
    (hx : x ∈ l) (hpx : ¬ p x) : (l.filter p).length < l.length := by
  induction l with
  | nil => cases hx
  | cons a t ih =>
    rcases List.mem_cons.mp hx with rfl | hmem
    · rw [Bool.not_eq_true] at hpx
      simp only [List.filter, hpx, List.length_cons]
      have := List.length_filter_le p t
      omega
    · by_cases hpa : p a
      · simp only [List.filter, hpa, List.length_cons]
        have := ih hmem
        omega
      · rw [Bool.not_eq_true] at hpa
        simp only [List.filter, hpa, List.length_cons]
        have := ih hmem
        omega

/-- An `_is_allowed` run over timestamps that all lie within one window of
each other and of the already-stored timestamps, with capacity to spare,
allows every request and stores the timestamps in order. -/
theorem runAllowed_within_window (q : Nat) (p : Int) (cid : String) :
    ∀ (ts : List Int) (rl : RateLimiter),
      rl.requests = q → rl.period = p →
      (rl.clients cid).length + ts.length ≤ q →
      (∀ a ∈ rl.clients cid ++ ts, ∀ b ∈ rl.clients cid ++ ts, a - b < p) →
      (runAllowed rl cid ts).1 = List.replicate ts.length true ∧
      (runAllowed rl cid ts).2.clients cid = rl.clients cid ++ ts ∧
      (runAllowed rl cid ts).2.requests = q ∧
      (runAllowed rl cid ts).2.period = p := by
  intro ts
  induction ts with
  | nil =>
    intro rl hrq hrp _ _
    exact ⟨rfl, (List.append_nil _).symm, hrq, hrp⟩
  | cons t ts ih =>
    intro rl hrq hrp hcap hwin
    have hkeep : (rl.clients cid).filter (fun x => t - rl.period < x) = rl.clients cid := by
      apply List.filter_eq_self.mpr
      intro x hx
      have hd : t - x < p :=
        hwin t (List.mem_append_right _ (List.mem_cons_self t ts)) x
          (List.mem_append_left _ hx)
      rw [hrp]
      simp only [decide_eq_true_eq]
      omega
    have hstep : rl.is_allowed cid t =
        (true, { rl with
          clients := updateClients rl.clients cid (rl.clients cid ++ [t]) }) := by
      simp only [RateLimiter.is_allowed, hkeep]
      rw [if_neg]
      rw [hrq]
      simp only [List.length_cons] at hcap
      omega
    have hcl : ({ rl with
        clients := updateClients rl.clients cid (rl.clients cid ++ [t]) } :
          RateLimiter).clients cid = rl.clients cid ++ [t] := by
      simp [updateClients]
    have happ : (rl.clients cid ++ [t]) ++ ts = rl.clients cid ++ t :: ts := by
      simp
    obtain ⟨h1, h2, h3, h4⟩ :=
      ih { rl with clients := updateClients rl.clients cid (rl.clients cid ++ [t]) }
        hrq hrp
        (by
          rw [hcl, List.length_append]
          simp only [List.length_cons] at hcap
          simp
          omega)
        (by
          rw [hcl, happ]
          exact hwin)
    refine ⟨?_, ?_, ?_, ?_⟩
    · simp only [runAllowed, hstep, h1, List.length_cons, List.replicate_succ]
    · simp only [runAllowed, hstep]
      rw [h2, hcl, happ]
    · simp only [runAllowed, hstep]
      exact h3
    · simp only [runAllowed, hstep]
      exact h4

/-- Claim C4: starting from a fresh limiter with the default configuration
(quota 100, period 60), 100 requests from one client whose timestamps all lie
within one period are all allowed; a further request inside the same window is
rejected and, through the `limit` decorator, raises the 429 rate-limit error
with the message `"Rate limit exceeded. Please try again later."`; and once
the whole period has elapsed past every stored timestamp, a request from the
same client is allowed again. -/
theorem rate_limiter_window_behavior (cid : String) (ts : List Int) (t2 t3 : Int)
    (hlen : ts.length = 100)
    (hwin : ∀ a ∈ ts ++ [t2], ∀ b ∈ ts ++ [t2], a - b < 60)
    (hlate : ∀ a ∈ ts, a + 60 ≤ t3) :
    (runAllowed (RateLimiter.init 100 60) cid ts).1 = List.replicate 100 true ∧
    ((runAllowed (RateLimiter.init 100 60) cid ts).2.limit ⟨none, some cid⟩ t2
        (Except.ok PUnit.unit)).1 =
      Except.error ⟨429, "Rate limit exceeded. Please try again later."⟩ ∧
    ((((runAllowed (RateLimiter.init 100 60) cid ts).2.is_allowed cid t2).2).is_allowed
        cid t3).1 = true := by
  have hwin0 : ∀ a ∈ ([] : List Int) ++ ts, ∀ b ∈ ([] : List Int) ++ ts, a - b < 60 := by
    intro a ha b hb
    simp only [List.nil_append] at ha hb
    exact hwin a (List.mem_append_left _ ha) b (List.mem_append_left _ hb)
  obtain ⟨houts, hcl, hrq, hrp⟩ :=
    runAllowed_within_window 100 60 cid ts (RateLimiter.init 100 60) rfl rfl
      (by simp [RateLimiter.init, hlen]) hwin0
  have hcl2 : (runAllowed (RateLimiter.init 100 60) cid ts).2.clients cid = ts := by
    simpa [RateLimiter.init] using hcl
  have hkeep2 :
      ((runAllowed (RateLimiter.init 100 60) cid ts).2.clients cid).filter
        (fun x => t2 - (runAllowed (RateLimiter.init 100 60) cid ts).2.period < x) = ts := by
    rw [hcl2, hrp]
    apply List.filter_eq_self.mpr
    intro x hx
    have hd : t2 - x < 60 :=
      hwin t2 (List.mem_append_right _ (List.mem_singleton.mpr rfl)) x
        (List.mem_append_left _ hx)
    simp only [decide_eq_true_eq]
    omega
  have hstep2 : (runAllowed (RateLimiter.init 100 60) cid ts).2.is_allowed cid t2 =
      (false, { (runAllowed (RateLimiter.init 100 60) cid ts).2 with
        clients := updateClients (runAllowed (RateLimiter.init 100 60) cid ts).2.clients
          cid ts }) := by
    simp only [RateLimiter.is_allowed, hkeep2]
    rw [if_pos]
    rw [hrq, hlen]
  refine ⟨hlen ▸ houts, ?_, ?_⟩
  · simp only [RateLimiter.limit, get_client_id, Option.getD, hstep2]
  · rw [hstep2]
    have hupd : updateClients (runAllowed (RateLimiter.init 100 60) cid ts).2.clients
        cid ts cid = ts := by
      simp [updateClients]
    have hkeep3 : (ts.filter (fun x =>
        t3 - (runAllowed (RateLimiter.init 100 60) cid ts).2.period < x)) = [] := by
      rw [hrp]
      apply List.filter_eq_nil_iff.mpr
      intro x hx
      have := hlate x hx
      simp only [decide_eq_true_eq]
      omega
    simp only [RateLimiter.is_allowed, hupd, hkeep3, List.length_nil]
    rw [if_neg]
    rw [hrq]
    omega

/-- Witness for C4: 100 requests at time 0, a 101st at time 0, and a later
one at time 60. -/
theorem rate_limiter_window_behavior_test :
    (runAllowed (RateLimiter.init 100 60) "1.2.3.4" (List.replicate 100 0)).1 =
      List.replicate 100 true :=
  (rate_limiter_window_behavior "1.2.3.4" (List.replicate 100 0) 0 60
    (by decide) (by decide) (by decide)).1

/-- A single `_is_allowed` step keeps every client's stored-timestamp count
within the quota and preserves the configuration fields. -/
theorem is_allowed_preserves_bound (rl : RateLimiter) (cid0 : String) (now : Int)
    (h : ∀ c, (rl.clients c).length ≤ rl.requests) :
    (∀ c, (((rl.is_allowed cid0 now).2).clients c).length ≤ rl.requests) ∧
    ((rl.is_allowed cid0 now).2).requests = rl.requests ∧
    ((rl.is_allowed cid0 now).2).period = rl.period := by
  simp only [RateLimiter.is_allowed]
  by_cases hc : rl.requests ≤
      ((rl.clients cid0).filter (fun t => now - rl.period < t)).length
  · rw [if_pos hc]
    refine ⟨?_, rfl, rfl⟩
    intro c
    simp only [updateClients]
    by_cases hcc : c = cid0
    · simp only [if_pos hcc]
      exact le_trans (List.length_filter_le _ _) (h cid0)
    · simp only [if_neg hcc]
      exact h c
  · rw [if_neg hc]
    refine ⟨?_, rfl, rfl⟩
    intro c
    simp only [updateClients]
    by_cases hcc : c = cid0
    · simp only [if_pos hcc, List.length_append, List.length_singleton]
      omega
    · simp only [if_neg hcc]
      exact h c

/-- Along any request trace, every client's stored-timestamp count stays
within the quota (and the configuration fields are unchanged). -/
theorem runTrace_bound (trace : List (String × Int)) :
    ∀ (rl : RateLimiter), (∀ c, (rl.clients c).length ≤ rl.requests) →
      (∀ c, ((runTrace rl trace).clients c).length ≤ rl.requests) ∧
      (runTrace rl trace).requests = rl.requests := by
  induction trace with
  | nil =>
    intro rl h
    exact ⟨h, rfl⟩
  | cons e rest ih =>
    intro rl h
    obtain ⟨h1, h2, _⟩ := is_allowed_preserves_bound rl e.1 e.2 h
    obtain ⟨ih1, ih2⟩ := ih (rl.is_allowed e.1 e.2).2 (by rw [h2]; exact h1)
    constructor
    · intro c
      have := ih1 c
      rw [h2] at this
      simpa [runTrace] using this
    · simp only [runTrace]
      rw [ih2, h2]

/-- Claim C10: a rejected request stores only the pruned old timestamps
(no new timestamp is recorded); every state reachable from a fresh limiter
keeps each client's stored count within the quota; and under that bound a
client is allowed again as soon as its oldest stored timestamp has aged past
the period. -/
theorem rate_limiter_reject_invariants :
    (∀ (rl : RateLimiter) (cid : String) (now : Int),
      (rl.is_allowed cid now).1 = false →
      ((rl.is_allowed cid now).2).clients cid =
        (rl.clients cid).filter (fun t => now - rl.period < t)) ∧
    (∀ (q : Nat) (p : Int) (trace : List (String × Int)) (cid : String),
      ((runTrace (RateLimiter.init q p) trace).clients cid).length ≤ q) ∧
    (∀ (rl : RateLimiter) (cid : String) (now t0 : Int),
      (rl.clients cid).length ≤ rl.requests →
      t0 ∈ rl.clients cid →
      t0 ≤ now - rl.period →
      (rl.is_allowed cid now).1 = true) := by
  refine ⟨?_, ?_, ?_⟩
  · intro rl cid now h
    simp only [RateLimiter.is_allowed] at h ⊢
    by_cases hc : rl.requests ≤
        ((rl.clients cid).filter (fun t => now - rl.period < t)).length
    · rw [if_pos hc]
      simp [updateClients]
    · rw [if_neg hc] at h
      cases h
  · intro q p trace cid
    have h0 : ∀ c, (((RateLimiter.init q p).clients c).length ≤
        (RateLimiter.init q p).requests) := by
      intro c
      simp [RateLimiter.init]
    exact (runTrace_bound trace (RateLimiter.init q p) h0).1 cid
  · intro rl cid now t0 hlen hmem hage
    simp only [RateLimiter.is_allowed]
    have hlt : ((rl.clients cid).filter (fun t => now - rl.period < t)).length <
        (rl.clients cid).length := by
      apply length_filter_lt_of_mem _ _ t0 hmem
      simp only [decide_eq_true_eq]
      omega
    rw [if_neg (by omega)]

/-- Witness for C10: the rejection clause evaluated on a concrete full
limiter state. -/
theorem rate_limiter_reject_invariants_test :
    ((probeLimiter.is_allowed "cli" 30).2).clients "cli" =
      (probeLimiter.clients "cli").filter (fun t => 30 - probeLimiter.period < t) :=
  rate_limiter_reject_invariants.1 probeLimiter "cli" 30 rfl

end FIA
